import Mathlib

/-!
Verification of the data-freshness-aware fetch-and-cache pipeline of the
crypto data-ingestion repository (`src/data/data_ingestion/`).

Conventions of the embedding:
* Timestamps are naturals counting milliseconds (the repository uses
  millisecond Unix timestamps for the kline API and pandas datetimes
  elsewhere; the freshness window `timedelta(hours=4)` is 14400000 ms).
* A cached table is a list of rows; each row is its primary timestamp
  (the `open_time` column for ohlcv, the `timestamp` column otherwise)
  paired with one numeric value column standing for the row's payload.
* A cache file on disk is either absent, present but unparseable
  (`pd.read_csv` raises on it), or a parsed table.
* Fallible code is embedded as `Except`-returning functions; a Python
  exception that escapes a function is an `Except.error`.

The file is organized as definitions first, then theorems.
-/

deriving instance DecidableEq for Except

namespace CryptoData

/-! ## Definitions -/

/-- Four hours in milliseconds: `timedelta(hours=4)`, the freshness window
and the merge tolerance of the pipeline. -/
def fourHours : Nat := 14400000

/-- A cached table: rows of (primary timestamp in ms, numeric payload). -/
abbrev Table := List (Nat × Int)

/-- What a cache file can hold on disk: no file, a file `pd.read_csv`
fails to parse, or a parsed table. -/
inductive FileContent where
  | absent
  | corrupt
  | parsed (t : Table)
deriving DecidableEq

/-- The error `pd.read_csv` raises on a corrupt or truncated file. -/
inductive PError where
  | parseError
deriving DecidableEq

/-- `df['open_time'].max()` / `df['timestamp'].max()`: maximum of the
primary timestamp column. -/
def maxTs (t : Table) : Nat := t.foldl (fun m r => max m r.1) 0

/-- `BaseData._check_local_data` (base_data.py lines 23-47).
Absent file: `(False, empty)`.  Existing file is read with `pd.read_csv`
(which raises, uncaught, on a corrupt file).  A parsed empty table gives
`(False, empty)`.  Otherwise the maximum primary timestamp is compared to
the current time: `datetime.now() - latest < timedelta(hours=4)` gives
`(True, df)`, else `(False, df)` — note the outdated table itself is
returned, not an empty one. -/
def check_local_data (now : Nat) (fc : FileContent) : Except PError (Bool × Table) :=
  match fc with
  | .absent => .ok (false, [])
  | .corrupt => .error .parseError
  | .parsed t =>
    if t = [] then .ok (false, [])
    else if now < maxTs t + fourHours then .ok (true, t)
    else .ok (false, t)

/-- The query parameters `fetch_historical_ohlcv` sends to the kline
endpoint. -/
structure KlineParams where
  symbol : String
  interval : String
  limit : Nat
  startTime : Option Nat
deriving DecidableEq

/-- Parameter construction in `OHLCVData.fetch_historical_ohlcv`
(ohlcv_data.py lines 55-61): `params` always holds symbol, interval and
limit; `startTime` is added only under `if start_time:` — Python
truthiness, which is `False` both for `None` and for `0`. -/
def fetch_historical_ohlcv_params (symbol interval : String) (limit : Nat)
    (start_time : Option Nat) : KlineParams :=
  { symbol := symbol
    interval := interval
    limit := limit
    startTime :=
      match start_time with
      | none => none
      | some t => if t = 0 then none else some t }

/-- The probe request issued by `OHLCVData._get_symbol_listing_date`
(ohlcv_data.py line 33): `fetch_historical_ohlcv(limit=1, start_time=0)`. -/
def listing_date_probe_params (symbol interval : String) : KlineParams :=
  fetch_historical_ohlcv_params symbol interval 1 (some 0)

/-- One kline row, reduced to the two timestamps the pagination loop
inspects: `open_time` (ordering of the result) and `close_time` (cursor
advance). -/
structure Kline where
  openTime : Nat
  closeTime : Nat
deriving DecidableEq

/-- Strict ordering of kline rows by `open_time`. -/
def klineLt (a b : Kline) : Prop := a.openTime < b.openTime

/-- The pagination loop of `OHLCVData.fetch_and_store` (ohlcv_data.py
lines 107-119), with the kline API abstracted as a map from the start
cursor to the returned page, and an explicit fuel bound in place of
`while True`.  Each round: fetch a page at the cursor; an empty page
breaks the loop; otherwise the page is appended, the cursor advances to
one millisecond past the page's last `close_time`, and a page shorter
than 1000 rows breaks the loop.  The accumulated pages are concatenated
in order. -/
def fetch_and_store_pages (api : Nat → List Kline) : Nat → Nat → Option (List Kline)
  | 0, _ => none
  | fuel + 1, cursor =>
    let page := api cursor
    match page.getLast? with
    | none => some []
    | some last =>
      if page.length < 1000 then some page
      else
        match fetch_and_store_pages api fuel (last.closeTime + 1) with
        | none => none
        | some rest => some (page ++ rest)

/-- The fetchers `DataManager` constructs and invokes (data_manager.py
lines 27-32, 39-53).  Macro and on-chain fetchers exist in the repository
but are not wired into the manager. -/
inductive Fetcher where
  | ohlcv
  | orderbook
  | technical
  | sentiment
  | fearGreed
  | fundamental
deriving DecidableEq

/-- A fetcher run either raises (Python exception escaping its
`fetch_and_store`) or returns a table. -/
inductive FetchErr where
  | httpError
deriving DecidableEq

/-- Outcome environment: what each fetcher's `fetch_and_store` does when
invoked in this run. -/
abbrev FetchEnv := Fetcher → Except FetchErr Table

/-- The auxiliary fetchers in the order `fetch_and_store_all` invokes
them (data_manager.py lines 49-53). -/
def auxFetchers : List Fetcher :=
  [.orderbook, .technical, .sentiment, .fearGreed, .fundamental]

/-- Sequential invocation of a list of fetchers inside one `try` block:
the first raising fetcher aborts the sequence and its exception
propagates (re-raised by the `except` clause of `fetch_and_store_all`).
Returns the list of fetchers actually invoked and the outcome. -/
def runFetchSeq (env : FetchEnv) : List Fetcher → List Fetcher × Except FetchErr Unit
  | [] => ([], .ok ())
  | f :: fs =>
    match env f with
    | .error e => ([f], .error e)
    | .ok _ =>
      let r := runFetchSeq env fs
      (f :: r.1, r.2)

/-- `DataManager.fetch_and_store_all` (data_manager.py lines 35-58):
fetch OHLCV first; an exception there propagates.  If the OHLCV table is
empty, log and return without invoking anything else.  Otherwise invoke
the five auxiliary fetchers sequentially inside the same single `try`
block, so an exception in any of them is re-raised and ends the run.
The result records which fetchers were invoked and the final outcome. -/
def fetch_and_store_all (env : FetchEnv) : List Fetcher × Except FetchErr Unit :=
  match env .ohlcv with
  | .error e => ([.ohlcv], .error e)
  | .ok t =>
    if t = [] then ([.ohlcv], .ok ())
    else
      let r := runFetchSeq env auxFetchers
      (.ohlcv :: r.1, r.2)

/-- A run in which the order-book fetcher raises (it re-raises HTTP
errors, see C5) while every other fetcher would succeed. -/
def envOrderbookFails : FetchEnv := fun f =>
  match f with
  | .orderbook => .error .httpError
  | _ => .ok [(0, 1)]

/-- An all-successful run. -/
def envAllOk : FetchEnv := fun _ => .ok [(0, 1)]

/-- Whether invoking a fetcher raises in this run. -/
def fetchRaises (env : FetchEnv) (f : Fetcher) : Bool :=
  match env f with
  | .error _ => true
  | .ok _ => false

/-- Errors that can come out of an external HTTP fetch. -/
inductive HttpError where
  | timeout
  | badStatus
deriving DecidableEq

/-- `OHLCVData.fetch_historical_ohlcv` (ohlcv_data.py lines 63-92),
reduced to its exception structure: the upstream response is abstracted
as the already-normalized table; both `except` clauses log and re-raise,
so an HTTP error propagates to the caller. -/
def fetch_historical_ohlcv (resp : Except HttpError Table) : Except HttpError Table :=
  match resp with
  | .error e => .error e
  | .ok t => .ok t

/-- `OrderBookData.fetch_order_book_snapshot` (orderbook_data.py lines
35-64), reduced to its exception structure: the depth snapshot is
abstracted as the already-reduced top-of-book table; both `except`
clauses log and re-raise, so an HTTP error propagates to the caller. -/
def fetch_order_book_snapshot (resp : Except HttpError Table) : Except HttpError Table :=
  match resp with
  | .error e => .error e
  | .ok t => .ok t

/-- `FundamentalData.fetch_fundamental_data` (fundamental_data.py lines
29-52), reduced to its exception structure: the normalized series is
abstracted as the already-built table; both `except` clauses log and
return an empty DataFrame. -/
def fetch_fundamental_data (resp : Except HttpError Table) : Table :=
  match resp with
  | .error _ => []
  | .ok t => t

/-- `MacroData.fetch_macro_data` (macro_data.py lines 28-43): the single
`except Exception` clause logs and returns an empty DataFrame. -/
def fetch_macro_data (resp : Except HttpError Table) : Table :=
  match resp with
  | .error _ => []
  | .ok t => t

/-- `OnChainData.fetch_onchain_data` (onchain_data.py lines 32-62): both
`except` clauses log and return an empty DataFrame. -/
def fetch_onchain_data (resp : Except HttpError Table) : Table :=
  match resp with
  | .error _ => []
  | .ok t => t

/-- `pd.date_range(start=start, end=stop, freq='4H')`: the 4-hour grid
points from `start` up to and including `stop` (empty when the range is
reversed). -/
def dateRange (start stop : Nat) : List Nat :=
  if stop < start then []
  else (List.range ((stop - start) / fourHours + 1)).map (fun k => start + k * fourHours)

/-- `FearGreedData.fetch_fear_and_greed_index` (fear_greed_data.py lines
28-48): on a successful upstream response the single current index value
`v` (`data['data']['1']['fear_greed']`) is replicated across every 4-hour
bucket of the requested range; an HTTP error (or a malformed payload,
folded into the error case) is logged and an empty DataFrame returned. -/
def fetch_fear_and_greed_index (resp : Except HttpError Int) (start stop : Nat) : Table :=
  match resp with
  | .error _ => []
  | .ok v => (dateRange start stop).map (fun ts => (ts, v))

/-- `SentimentData.fetch_social_sentiment` (sentiment_data.py lines
33-46): one compound polarity score per 4-hour bucket of the range; any
exception in the `try` block is logged and an empty DataFrame returned. -/
def fetch_social_sentiment (resp : Except HttpError Int) (start stop : Nat) : Table :=
  match resp with
  | .error _ => []
  | .ok score => (dateRange start stop).map (fun ts => (ts, score))

/-- The data types the repository caches: one per fetcher subclass.
`econ` is the `'macro'` data type and `onchain` the `'onchain'` one. -/
inductive DataType where
  | ohlcv
  | orderbook
  | technical
  | sentiment
  | fearGreed
  | fundamentals
  | econ
  | onchain
deriving DecidableEq

/-- The cache directory: what file content each data type's cache file
holds for the configured symbol and interval. -/
abbrev FS := DataType → FileContent

/-- The data types `DataManager.merge_data_for_training` iterates over
(data_manager.py line 67) — note `'macro'` and `'onchain'` are not in
this list. -/
def mergeTypes : List DataType :=
  [.ohlcv, .orderbook, .technical, .sentiment, .fearGreed, .fundamentals]

/-- A combined (merged) table: the `open_time` axis with the accumulated
value columns of the joined sources (a missing value where a source had
no row within tolerance). -/
abbrev CTable := List (Nat × List (Option Int))

/-- The first present source becomes the running combined table
(`df.rename(columns={key: 'open_time'})`). -/
def initCombined (t : Table) : CTable := t.map (fun r => (r.1, [some r.2]))

/-- One step of `matchNearest`'s scan over the right table: a candidate
within tolerance replaces the current one only when strictly closer (on a
tie the earlier-scanned row is kept, matching `merge_asof` on sorted
input, which prefers the backward match). -/
def matchStep (tol ts : Nat) (acc : Option (Nat × Int)) (r : Nat × Int) : Option (Nat × Int) :=
  if Nat.dist ts r.1 ≤ tol then
    match acc with
    | none => some r
    | some b => if Nat.dist ts r.1 < Nat.dist ts b.1 then some r else some b
  else acc

/-- The row of the right table that `pd.merge_asof(..,
direction='nearest', tolerance=4h)` matches to a left timestamp `ts`:
the closest right row within the tolerance, if any. -/
def matchNearest (tol ts : Nat) (right : Table) : Option (Nat × Int) :=
  right.foldl (matchStep tol ts) none

/-- One `pd.merge_asof` call of the merge loop (data_manager.py lines
81-89): every row of the running combined table gains one value column,
holding the payload of the nearest right row within the 4-hour tolerance
(or nothing); the right key column is then dropped. -/
def mergeAsofStep (tol : Nat) (c : CTable) (right : Table) : CTable :=
  c.map (fun row => (row.1, row.2 ++ [(matchNearest tol row.1 right).map Prod.snd]))

/-- The merge loop of `DataManager.merge_data_for_training`
(data_manager.py lines 67-89):  for each data type in order, a missing
file is skipped (warning logged); an unparseable file makes `pd.read_csv`
raise inside the `try`; the first parsed table becomes the running
combined table and each later one is nearest-joined onto it with the
4-hour tolerance. -/
def mergeList (fs : FS) : List DataType → Option CTable → Except PError (Option CTable)
  | [], acc => .ok acc
  | dt :: dts, acc =>
    match fs dt with
    | .absent => mergeList fs dts acc
    | .corrupt => .error .parseError
    | .parsed t =>
      match acc with
      | none => mergeList fs dts (some (initCombined t))
      | some c => mergeList fs dts (some (mergeAsofStep fourHours c t))

/-- `DataManager.merge_data_for_training` (data_manager.py lines 60-101):
run the merge loop; a combined table is persisted and returned; if no
source was present an empty DataFrame is returned; any exception in the
body is caught by the trailing `except` and an empty DataFrame returned. -/
def merge_data_for_training (fs : FS) : CTable :=
  match mergeList fs mergeTypes none with
  | .ok (some c) => c
  | .ok none => []
  | .error _ => []

/-- Point update of the cache directory. -/
def updateFS (fs : FS) (dt : DataType) (fc : FileContent) : FS :=
  fun d => if d = dt then fc else fs d

/-- A cache directory holding an OHLCV file and a `'macro'` file whose
row sits exactly on the OHLCV timestamp. -/
def fsWithMacro : FS := fun dt =>
  match dt with
  | .ohlcv => .parsed [(0, 1)]
  | .econ => .parsed [(0, 99)]
  | _ => .absent

/-- A cache directory whose OHLCV file is corrupt and all others absent. -/
def fsCorruptOhlcv : FS := fun dt =>
  match dt with
  | .ohlcv => .corrupt
  | _ => .absent

/-! ## Helper theorems -/

/-- One unfolding step of the pagination loop at positive fuel. -/
theorem fetch_and_store_pages_succ (api : Nat → List Kline) (fuel cursor : Nat) :
    fetch_and_store_pages api (fuel + 1) cursor =
      match (api cursor).getLast? with
      | none => some []
      | some last =>
        if (api cursor).length < 1000 then some (api cursor)
        else
          match fetch_and_store_pages api fuel (last.closeTime + 1) with
          | none => none
          | some rest => some (api cursor ++ rest) := rfl

/-- In a list that is strictly increasing in `open_time`, every element's
`open_time` is at most the last element's. -/
theorem klineLt_mem_le_getLast :
    ∀ (l : List Kline) (b : Kline), l.Pairwise klineLt → l.getLast? = some b →
      ∀ a ∈ l, a.openTime ≤ b.openTime
  | [], _, _, hb => by simp at hb
  | [x], b, _, hb => by
    simp only [List.getLast?_singleton, Option.some.injEq] at hb
    subst hb
    intro a ha
    simp only [List.mem_singleton] at ha
    subst ha
    exact Nat.le_refl _
  | x :: y :: xs, b, hpw, hb => by
    rw [List.getLast?_cons_cons] at hb
    intro a ha
    rcases List.mem_cons.mp ha with rfl | ha'
    · have hbmem : b ∈ y :: xs := List.mem_of_getLast?_eq_some hb
      exact Nat.le_of_lt ((List.pairwise_cons.mp hpw).1 b hbmem)
    · exact klineLt_mem_le_getLast (y :: xs) b (List.pairwise_cons.mp hpw).2 hb a ha'

/-- The invoked prefix of a fetcher sequence run inside one `try` block:
every fetcher up to and including the first one that raises. -/
theorem runFetchSeq_invoked (env : FetchEnv) :
    ∀ fs : List Fetcher,
      (runFetchSeq env fs).1 = fs.take (fs.findIdx (fetchRaises env) + 1)
  | [] => rfl
  | f :: fs => by
    match henv : env f with
    | .error e =>
      simp [runFetchSeq, henv, List.findIdx_cons, fetchRaises]
    | .ok t =>
      simp only [runFetchSeq, henv, List.findIdx_cons, fetchRaises,
        Bool.cond_false, List.take_succ_cons]
      rw [runFetchSeq_invoked env fs]

/-- One unfolding step of the merge loop. -/
theorem mergeList_cons (fs : FS) (dt : DataType) (dts : List DataType)
    (acc : Option CTable) :
    mergeList fs (dt :: dts) acc =
      match fs dt with
      | .absent => mergeList fs dts acc
      | .corrupt => .error .parseError
      | .parsed t =>
        match acc with
        | none => mergeList fs dts (some (initCombined t))
        | some c => mergeList fs dts (some (mergeAsofStep fourHours c t)) := rfl

/-- The merge loop only consults the cache entries of the data types it
iterates over. -/
theorem mergeList_congr (fs fs' : FS) :
    ∀ (dts : List DataType) (acc : Option CTable),
      (∀ d ∈ dts, fs' d = fs d) → mergeList fs' dts acc = mergeList fs dts acc
  | [], _, _ => rfl
  | dt :: dts, acc, h => by
    have hdt : fs' dt = fs dt := h dt (List.mem_cons_self dt dts)
    have hrest : ∀ d ∈ dts, fs' d = fs d := fun d hd => h d (List.mem_cons_of_mem dt hd)
    rw [mergeList_cons, mergeList_cons, hdt]
    cases hfd : fs dt with
    | absent => exact mergeList_congr fs fs' dts acc hrest
    | corrupt => rfl
    | parsed t =>
      cases acc with
      | none => exact mergeList_congr fs fs' dts (some (initCombined t)) hrest
      | some c => exact mergeList_congr fs fs' dts (some (mergeAsofStep fourHours c t)) hrest

/-- A data type whose cache file is missing is skipped by the merge loop:
deleting it from the iteration list changes nothing. -/
theorem mergeList_skip_absent (fs : FS) (dt : DataType) (h : fs dt = FileContent.absent) :
    ∀ (dts₁ dts₂ : List DataType) (acc : Option CTable),
      mergeList fs (dts₁ ++ dt :: dts₂) acc = mergeList fs (dts₁ ++ dts₂) acc
  | [], dts₂, acc => by rw [List.nil_append, List.nil_append, mergeList_cons, h]
  | d :: dts₁, dts₂, acc => by
    rw [List.cons_append, List.cons_append, mergeList_cons, mergeList_cons]
    cases hfd : fs d with
    | absent => exact mergeList_skip_absent fs dt h dts₁ dts₂ acc
    | corrupt => rfl
    | parsed t =>
      cases acc with
      | none => exact mergeList_skip_absent fs dt h dts₁ dts₂ (some (initCombined t))
      | some c => exact mergeList_skip_absent fs dt h dts₁ dts₂ (some (mergeAsofStep fourHours c t))

/-- `matchStep` never introduces a candidate outside the tolerance. -/
theorem matchStep_within (tol ts : Nat) (acc : Option (Nat × Int)) (r : Nat × Int)
    (hacc : ∀ m, acc = some m → Nat.dist ts m.1 ≤ tol) :
    ∀ m, matchStep tol ts acc r = some m → Nat.dist ts m.1 ≤ tol := by
  intro m h
  unfold matchStep at h
  by_cases hd : Nat.dist ts r.1 ≤ tol
  · rw [if_pos hd] at h
    cases acc with
    | none =>
      simp only [Option.some.injEq] at h
      subst h
      exact hd
    | some b =>
      dsimp only at h
      by_cases hlt : Nat.dist ts r.1 < Nat.dist ts b.1
      · rw [if_pos hlt] at h
        simp only [Option.some.injEq] at h
        subst h
        exact hd
      · rw [if_neg hlt] at h
        simp only [Option.some.injEq] at h
        subst h
        exact hacc b rfl
  · rw [if_neg hd] at h
    exact hacc m h

/-- The fold behind `matchNearest` keeps its candidate within tolerance. -/
theorem foldl_matchStep_within (tol ts : Nat) :
    ∀ (right : Table) (acc : Option (Nat × Int)),
      (∀ m, acc = some m → Nat.dist ts m.1 ≤ tol) →
      ∀ m, right.foldl (matchStep tol ts) acc = some m → Nat.dist ts m.1 ≤ tol
  | [], _, hacc, m, h => hacc m h
  | r :: rs, acc, hacc, m, h =>
    foldl_matchStep_within tol ts rs (matchStep tol ts acc r)
      (matchStep_within tol ts acc r hacc) m (by simpa using h)

/-- A row matched by `matchNearest` lies within the tolerance of the left
timestamp. -/
theorem matchNearest_within (tol ts : Nat) (right : Table) (m : Nat × Int)
    (h : matchNearest tol ts right = some m) : Nat.dist ts m.1 ≤ tol :=
  foldl_matchStep_within tol ts right none (by intro m' hm'; cases hm') m h

/-! ## Claim theorems -/

/-- Claim C1, counterexample: a cache file whose maximum timestamp (0 ms)
is far older than 4 hours before the current time (43200000 ms = 12 h)
makes `_check_local_data` return `(False, the cached table)`, not
`(False, empty table)` as the claim states. -/
theorem check_local_data_stale_cex :
    check_local_data 43200000 (FileContent.parsed [(0, 1)]) =
      Except.ok (false, [(0, 1)]) ∧
    check_local_data 43200000 (FileContent.parsed [(0, 1)]) ≠
      Except.ok (false, ([] : Table)) := by
  decide

/-- Claim C1, amended: `_check_local_data` returns `(False, empty)` when
the file is absent or parses to an empty table; when the parsed table is
non-empty it returns `(False, the cached table)` if the maximum primary
timestamp is at least 4 hours before now, and `(True, the cached table)`
otherwise.  (Corrupt files are the subject of C6.) -/
theorem check_local_data_spec (now : Nat) (t : Table) :
    check_local_data now FileContent.absent = Except.ok (false, []) ∧
    check_local_data now (FileContent.parsed []) = Except.ok (false, []) ∧
    (t ≠ [] → maxTs t + fourHours ≤ now →
      check_local_data now (FileContent.parsed t) = Except.ok (false, t)) ∧
    (t ≠ [] → now < maxTs t + fourHours →
      check_local_data now (FileContent.parsed t) = Except.ok (true, t)) := by
  refine ⟨rfl, rfl, ?_, ?_⟩
  · intro ht hstale
    simp only [check_local_data, if_neg ht]
    rw [if_neg (by omega)]
  · intro ht hfresh
    simp only [check_local_data, if_neg ht]
    rw [if_pos hfresh]

/-- Witness for the amended C1 at concrete inputs: a stale file (max
timestamp 0, now = 12 h) yields `(False, table)`; a fresh file (now =
1 ms) yields `(True, table)`. -/
theorem check_local_data_spec_witness :
    check_local_data 43200001 (FileContent.parsed [(0, 2)]) =
      Except.ok (false, [(0, 2)]) ∧
    check_local_data 1 (FileContent.parsed [(0, 2)]) =
      Except.ok (true, [(0, 2)]) :=
  ⟨(check_local_data_spec 43200001 [(0, 2)]).2.2.1 (by decide) (by decide),
   (check_local_data_spec 1 [(0, 2)]).2.2.2 (by decide) (by decide)⟩

/-- Claim C6: on a cache file that exists but cannot be parsed as a table,
`_check_local_data` has no exception handler around `pd.read_csv`, so the
parse error propagates to the caller instead of being treated as absent
data. -/
theorem check_local_data_corrupt_raises :
    check_local_data 0 FileContent.corrupt = Except.error PError.parseError ∧
    check_local_data 0 FileContent.corrupt ≠ Except.ok (false, ([] : Table)) := by
  decide

/-- Claim C2: the one-row probe of `_get_symbol_listing_date` passes
`start_time = 0`, but `if start_time:` is false at `0`, so the request
carries no `startTime` at all — it is identical to a request with no start
cursor, and the kline endpoint then serves the most recent candle, not the
earliest one. -/
theorem listing_date_probe_omits_startTime :
    (listing_date_probe_params "BTCUSDT" "4h").startTime = none ∧
    (listing_date_probe_params "BTCUSDT" "4h").startTime ≠ some 0 ∧
    listing_date_probe_params "BTCUSDT" "4h" =
      fetch_historical_ohlcv_params "BTCUSDT" "4h" 1 none := by
  decide

/-- Claim C3: for a kline API whose pages hold at most 1000 rows in
strictly increasing `open_time` order starting at or after the requested
cursor, whose rows close no earlier than they open, and whose data is
finite (beyond some bound `B` every page is empty), the pagination loop
of `fetch_and_store` terminates — with any fuel past the bound it stops
at the first empty or short page and returns a result — and the
concatenated result is strictly increasing in `open_time` (hence has no
duplicate timestamps), every row at or after the initial cursor. -/
theorem fetch_and_store_pages_terminates_sorted (api : Nat → List Kline)
    (hlim : ∀ c, (api c).length ≤ 1000)
    (hpw : ∀ c, (api c).Pairwise klineLt)
    (hstart : ∀ c, ∀ k ∈ api c, c ≤ k.openTime)
    (hoc : ∀ c, ∀ k ∈ api c, k.openTime ≤ k.closeTime)
    (B : Nat) (hB : ∀ c, B ≤ c → api c = []) :
    ∀ (fuel cursor : Nat), B ≤ cursor + fuel →
      ∃ res, fetch_and_store_pages api (fuel + 1) cursor = some res ∧
        res.Pairwise klineLt ∧ ∀ k ∈ res, cursor ≤ k.openTime := by
  intro fuel
  induction fuel with
  | zero =>
    intro cursor hc
    refine ⟨[], ?_, List.Pairwise.nil, by simp⟩
    have hempty : api cursor = [] := hB cursor (by omega)
    simp [fetch_and_store_pages, hempty]
  | succ f ih =>
    intro cursor hc
    by_cases hempty : api cursor = []
    · refine ⟨[], ?_, List.Pairwise.nil, by simp⟩
      simp [fetch_and_store_pages, hempty]
    · obtain ⟨last, hlast⟩ := Option.ne_none_iff_exists'.mp
        (mt List.getLast?_eq_none_iff.mp hempty)
      have hlastmem : last ∈ api cursor := List.mem_of_getLast?_eq_some hlast
      by_cases hshort : (api cursor).length < 1000
      · refine ⟨api cursor, ?_, hpw cursor, hstart cursor⟩
        rw [fetch_and_store_pages_succ, hlast]
        simp only [if_pos hshort]
      · -- full page: the loop recurses with the advanced cursor
        have hcur : cursor + 1 ≤ last.closeTime + 1 := by
          have h1 := hstart cursor last hlastmem
          have h2 := hoc cursor last hlastmem
          omega
        obtain ⟨rest, hrest, hrestpw, hrestge⟩ :=
          ih (last.closeTime + 1) (by omega)
        refine ⟨api cursor ++ rest, ?_, ?_, ?_⟩
        · rw [fetch_and_store_pages_succ, hlast]
          simp only [if_neg hshort, hrest]
        · rw [List.pairwise_append]
          refine ⟨hpw cursor, hrestpw, ?_⟩
          intro a ha b hb
          have h1 : a.openTime ≤ last.openTime :=
            klineLt_mem_le_getLast (api cursor) last (hpw cursor) hlast a ha
          have h2 : last.openTime ≤ last.closeTime := hoc cursor last hlastmem
          have h3 : last.closeTime + 1 ≤ b.openTime := hrestge b hb
          exact Nat.lt_of_le_of_lt (Nat.le_trans h1 h2) (by omega)
        · intro k hk
          rcases List.mem_append.mp hk with hk | hk
          · exact hstart cursor k hk
          · have := hrestge k hk
            omega

/-- Witness for C3: a one-page API (a single kline at cursor 0, empty
beyond bound 1) makes the loop return that single short page. -/
theorem fetch_and_store_pages_witness :
    ∃ res, fetch_and_store_pages
        (fun c => if c = 0 then [⟨0, 5⟩] else []) 2 0 = some res ∧
      res.Pairwise klineLt ∧ ∀ k ∈ res, 0 ≤ k.openTime :=
  fetch_and_store_pages_terminates_sorted
    (fun c => if c = 0 then [⟨0, 5⟩] else [])
    (by intro c; by_cases h : c = 0 <;> simp [h])
    (by intro c; by_cases h : c = 0 <;> simp [h])
    (by
      intro c k hk
      by_cases h : c = 0 <;> simp [h] at hk
      simp [hk, h])
    (by
      intro c k hk
      by_cases h : c = 0 <;> simp [h] at hk
      simp [hk])
    1
    (by intro c hcge; simp [Nat.ne_of_gt hcge])
    1 0 (by decide)

/-- Claim C4, counterexample: with a non-empty OHLCV fetch, an exception
raised by the order-book fetcher prevents the technical, sentiment,
fear/greed and fundamentals fetchers from being invoked — the auxiliary
fetchers are not independent failure domains. -/
theorem fetch_and_store_all_error_blocks_rest :
    (envOrderbookFails Fetcher.orderbook).isOk = false ∧
    Fetcher.orderbook ∈ (fetch_and_store_all envOrderbookFails).1 ∧
    Fetcher.technical ∉ (fetch_and_store_all envOrderbookFails).1 ∧
    Fetcher.sentiment ∉ (fetch_and_store_all envOrderbookFails).1 ∧
    Fetcher.fearGreed ∉ (fetch_and_store_all envOrderbookFails).1 ∧
    Fetcher.fundamental ∉ (fetch_and_store_all envOrderbookFails).1 := by
  decide

/-- Claim C4, amended: after a non-empty OHLCV fetch the auxiliary
fetchers are invoked sequentially inside a single `try` block, so the set
actually invoked is exactly the prefix of
`[orderbook, technical, sentiment, fear_greed, fundamentals]` up to and
including the first one that raises: an exception in one auxiliary
fetcher does prevent all later auxiliary fetchers from being invoked. -/
theorem fetch_and_store_all_invoked (env : FetchEnv) (t : Table)
    (h1 : env .ohlcv = .ok t) (h2 : t ≠ []) :
    (fetch_and_store_all env).1 =
      Fetcher.ohlcv ::
        auxFetchers.take (auxFetchers.findIdx (fetchRaises env) + 1) := by
  simp only [fetch_and_store_all, h1, if_neg h2]
  rw [runFetchSeq_invoked env auxFetchers]

/-- Witness for the amended C4: in an all-successful run the invoked list
is OHLCV followed by the whole auxiliary prefix. -/
theorem fetch_and_store_all_invoked_witness :
    (fetch_and_store_all envAllOk).1 =
      Fetcher.ohlcv ::
        auxFetchers.take (auxFetchers.findIdx (fetchRaises envAllOk) + 1) :=
  fetch_and_store_all_invoked envAllOk [(0, 1)] rfl (by decide)

/-- Claim C5, counterexample: a network error during the order-book
snapshot fetch is re-raised by `fetch_order_book_snapshot`, not swallowed
into an empty-table result — so not every auxiliary fetcher degrades to
empty. -/
theorem fetch_order_book_snapshot_reraises :
    fetch_order_book_snapshot (.error .timeout) = Except.error HttpError.timeout ∧
    fetch_order_book_snapshot (.error .timeout) ≠ Except.ok ([] : Table) := by
  decide

/-- Claim C5, amended: the sentiment, fear/greed, fundamentals, macro and
on-chain fetch functions swallow an upstream error into an empty-table
result, while both the OHLCV fetch and the order-book snapshot fetch log
and re-raise it.  (The technical fetcher performs no external fetch.) -/
theorem fetch_error_semantics (e : HttpError) (start stop : Nat) :
    fetch_fear_and_greed_index (.error e) start stop = [] ∧
    fetch_social_sentiment (.error e) start stop = [] ∧
    fetch_fundamental_data (.error e) = [] ∧
    fetch_macro_data (.error e) = [] ∧
    fetch_onchain_data (.error e) = [] ∧
    fetch_historical_ohlcv (.error e) = Except.error e ∧
    fetch_order_book_snapshot (.error e) = Except.error e :=
  ⟨rfl, rfl, rfl, rfl, rfl, rfl, rfl⟩

/-- Claim C7, counterexample: the merge loop iterates over only six data
types; a present `'macro'` cache file — even one whose row sits exactly
on the OHLCV timestamp — is never read, and the combined table holds only
the OHLCV column. -/
theorem merge_data_for_training_skips_macro_cex :
    fsWithMacro DataType.econ = FileContent.parsed [(0, 99)] ∧
    DataType.econ ∉ mergeTypes ∧
    DataType.onchain ∉ mergeTypes ∧
    merge_data_for_training fsWithMacro = [(0, [some 1])] := by
  decide

/-- Claim C7, amended: `merge_data_for_training` reads the cached series
of exactly the six data types `[ohlcv, orderbook, technical, sentiment,
fear_greed, fundamentals]` (macro and on-chain series are never merged);
a data type whose file is missing is skipped with a warning, leaving the
merge of the others unchanged; and the result never depends on the
`'macro'` or `'onchain'` cache entries. -/
theorem merge_data_for_training_amended (fs : FS) (g g' : FileContent)
    (dts₁ dts₂ : List DataType) (dt : DataType) (acc : Option CTable)
    (h : fs dt = FileContent.absent) :
    mergeTypes = [DataType.ohlcv, DataType.orderbook, DataType.technical,
      DataType.sentiment, DataType.fearGreed, DataType.fundamentals] ∧
    mergeList fs (dts₁ ++ dt :: dts₂) acc = mergeList fs (dts₁ ++ dts₂) acc ∧
    merge_data_for_training (updateFS (updateFS fs .econ g) .onchain g') =
      merge_data_for_training fs := by
  refine ⟨rfl, mergeList_skip_absent fs dt h dts₁ dts₂ acc, ?_⟩
  have hcongr : ∀ d ∈ mergeTypes, updateFS (updateFS fs .econ g) .onchain g' d = fs d := by
    intro d hd
    fin_cases hd <;> rfl
  unfold merge_data_for_training
  rw [mergeList_congr fs (updateFS (updateFS fs .econ g) .onchain g') mergeTypes none hcongr]

/-- Witness for the amended C7 at the all-absent cache directory. -/
theorem merge_data_for_training_amended_witness :
    mergeTypes = [DataType.ohlcv, DataType.orderbook, DataType.technical,
      DataType.sentiment, DataType.fearGreed, DataType.fundamentals] ∧
    mergeList (fun _ => FileContent.absent) ([] ++ DataType.ohlcv :: []) none =
      mergeList (fun _ => FileContent.absent) ([] ++ []) none ∧
    merge_data_for_training
        (updateFS (updateFS (fun _ => FileContent.absent) .econ .absent) .onchain .absent) =
      merge_data_for_training (fun _ => FileContent.absent) :=
  merge_data_for_training_amended (fun _ => FileContent.absent) .absent .absent
    [] [] .ohlcv none rfl

/-- Claim C8: a row of an auxiliary source whose timestamp is more than
the 4-hour tolerance away from every timestamp of the running combined
table is matched to none of its rows by the nearest-join — it contributes
no value to any combined row. -/
theorem merge_far_row_unmatched (c : CTable) (right : Table) (r : Nat × Int)
    (hr : r ∈ right) (hfar : ∀ row ∈ c, fourHours < Nat.dist row.1 r.1) :
    ∀ row ∈ c, matchNearest fourHours row.1 right ≠ some r := by
  intro row hrow hmatch
  have hle := matchNearest_within fourHours row.1 right r hmatch
  have hgt := hfar row hrow
  omega

/-- Witness for C8: an auxiliary row 10^8 ms away from the single
combined timestamp is not matched to it. -/
theorem merge_far_row_unmatched_witness :
    matchNearest fourHours 0 [(100000000, 7)] ≠ some (100000000, 7) :=
  merge_far_row_unmatched [(0, [some 1])] [(100000000, 7)] (100000000, 7)
    (by decide) (by decide) (0, [some 1]) (by decide)

/-- Claim C9: over a range spanning exactly three 4-hour buckets, a
fear/greed fetch with a successful upstream response carrying index value
`v` returns exactly 3 rows, each holding `v`. -/
theorem fetch_fear_and_greed_three_buckets (v : Int) (start stop : Nat)
    (h1 : 2 * fourHours ≤ stop - start) (h2 : stop - start < 3 * fourHours) :
    (fetch_fear_and_greed_index (.ok v) start stop).length = 3 ∧
    ∀ row ∈ fetch_fear_and_greed_index (.ok v) start stop, row.2 = v := by
  have hss : ¬ stop < start := by
    unfold fourHours at h1
    omega
  constructor
  · simp only [fetch_fear_and_greed_index, dateRange, if_neg hss,
      List.length_map, List.length_range]
    unfold fourHours at h1 h2 ⊢
    omega
  · intro row hrow
    unfold fetch_fear_and_greed_index at hrow
    rcases List.mem_map.mp hrow with ⟨ts, _, rfl⟩
    rfl

/-- Witness for C9: the range [0, 28800000 ms] spans three 4-hour
buckets and yields a 3-row table. -/
theorem fetch_fear_and_greed_three_buckets_witness :
    (fetch_fear_and_greed_index (.ok 55) 0 28800000).length = 3 :=
  (fetch_fear_and_greed_three_buckets 55 0 28800000 (by decide) (by decide)).1

/-- Claim C10: any exception raised inside the body of
`merge_data_for_training` (for instance `pd.read_csv` on a corrupt cache
file) is caught by its `except` clause and an empty table is returned;
no exception propagates to the caller. -/
theorem merge_data_for_training_never_raises (fs : FS) (e : PError)
    (h : mergeList fs mergeTypes none = .error e) :
    merge_data_for_training fs = [] := by
  unfold merge_data_for_training
  rw [h]

/-- Witness for C10: a corrupt OHLCV cache file makes the merge body
raise a parse error, and the caller still receives an empty table. -/
theorem merge_data_for_training_never_raises_witness :
    merge_data_for_training fsCorruptOhlcv = [] :=
  merge_data_for_training_never_raises fsCorruptOhlcv .parseError rfl

end CryptoData
